import Mathlib

/-!
Verification of the PRCA (Pull Request Code Analysis) Orchestrator
(`src/module/PrcaOrchestrator.ts`).

The development shallowly embeds the TypeScript source:

* JS numbers are modelled by `JSNumber` (finite values as `Int`, plus the
  IEEE specials `NaN`, `Infinity`, `-Infinity` that matter for the
  `messageLimit` constructor argument and `Array.prototype.slice`).
* JS strings are modelled by Lean `String`; where the Node.js `path`
  module inspects individual UTF-16 code units (`charCodeAt`), a string
  is viewed as its list of code points (`codes`).
* `Array.prototype.sort` is modelled as a stable sort (`jsSortMessages`),
  per the ECMAScript requirement that `sort` be stable.
* Fallible operations (`throw`, rejected promises) are modelled with
  `Except`; the promise chain of `postSonarQubeIssuesToPullRequest` is
  modelled as a function returning its outcome together with the trace of
  collaborator invocations.
-/

/-- Model of a JavaScript `number` as far as this code base needs it:
an exact integer, or one of the IEEE-754 special values `NaN`,
`Infinity`, `-Infinity`. -/
inductive JSNumber where
  | finite (v : Int)
  | nan
  | posInf
  | negInf
deriving DecidableEq

/-- Modelled from the spec: the `Message` class (`src/module/Message.ts`,
not part of the provided sources). A Finding carries the `file` path the
issue belongs to, an ordered numeric `priority` used for sorting, and
further descriptive fields (message text, line, rule id) that the
orchestrator treats as opaque — collapsed here into `content`. -/
structure Message where
  file : String
  priority : Int
  content : String
deriving DecidableEq

/-- Modelled from the spec: `Message.compare` (`src/module/Message.ts`,
not part of the provided sources). The spec states the surviving findings
are stable-sorted "by descending priority (highest priority first)", so
the JS comparator returns a negative number when the first argument has
the higher priority: `b.priority - a.priority`. -/
def Message.compare (a b : Message) : Int :=
  b.priority - a.priority

/-- The boolean "should `a` come no later than `b`" order induced by the
JS comparator `Message.compare` (a JS sort places `a` before `b` when the
comparator is negative, and keeps ties stable): `compare a b ≤ 0`. -/
def Message.le (a b : Message) : Bool :=
  Message.compare a b ≤ 0

/-- The order of `Message.le`, as a relation, for use with the stable
sort model. -/
def MessageLE (a b : Message) : Prop :=
  Message.le a b = true

instance : DecidableRel MessageLE :=
  fun _ _ => inferInstanceAs (Decidable (_ = true))

/-- Model of JS `Array.prototype.sort` with the comparator
`Message.compare`: a stable sort with respect to `MessageLE`, as required
of `sort` by the ECMAScript specification. (Insertion sort is used as the
model because it is stable and structurally recursive; any stable sort
computes the same list.) -/
def jsSortMessages (l : List Message) : List Message :=
  l.insertionSort MessageLE

/-- Model of the end index computation of JS `Array.prototype.slice(0, e)`
on an array of length `len`: the end argument goes through
`ToIntegerOrInfinity` (`NaN ↦ 0`), negative values count from the end of
the array, and the result is clamped to `[0, len]`. -/
def jsSliceEnd (len : Nat) (e : JSNumber) : Nat :=
  match e with
  | .nan => 0
  | .negInf => 0
  | .posInf => len
  | .finite v => if v < 0 then len - min len v.natAbs else min v.toNat len

/-- The relevance predicate of `filterMessages` (lines 90–100): a message
is kept iff iterating over `filesChanged` finds some entry that is
path-equal to `message.file`. The host path comparison
(`path.relative(fileChanged, message.file) === ''`) is abstracted as the
boolean predicate `pathEq`; the concrete Windows model is below. -/
def isRelevantMessage (pathEq : String → String → Bool)
    (filesChanged : List String) (m : Message) : Bool :=
  filesChanged.any (fun fileChanged => pathEq fileChanged m.file)

/-- Embedding of `PrcaOrchestrator.filterMessages` (lines 85–113):
keep the messages whose file was changed in the PR, sort them with
`Message.compare` (JS `sort` is stable), and truncate with
`slice(0, messageLimit)`. `pathEq` stands for the host path-equality
`path.relative(· , ·) === ''`. -/
def filterMessages (pathEq : String → String → Bool)
    (filesChanged : List String) (allMessages : List Message)
    (messageLimit : JSNumber) : List Message :=
  let result := allMessages.filter (isRelevantMessage pathEq filesChanged)
  let sorted := jsSortMessages result
  sorted.take (jsSliceEnd sorted.length messageLimit)

/-! ## Model of Node.js `path.relative`, win32 flavor

The source decides relevance with `path.relative(fileChanged, message.file)
=== ''` (line 95), a host function of the Node.js `path` module. Node's
implementation works on UTF-16 code units (`charCodeAt`); we mirror that by
viewing a string as its list of code points and modelling the win32 flavor
(both `/` and `\` are separators; the comparison of the two resolved paths
is case-insensitive via `toLowerCase`). Drive letters and UNC prefixes are
outside the model: paths are resolved against a current working directory
given as a list of segments. -/

/-- The code points of a string (model of iterating `charCodeAt`). -/
def codes (s : String) : List Nat :=
  s.data.map (fun c => c.toNat)

/-- Is the code unit a win32 path separator (`/`, code 47, or `\`,
code 92)? -/
def isSepCode (n : Nat) : Bool :=
  n == 47 || n == 92

/-- Model of JS `String.prototype.toLowerCase` on a single code unit,
restricted to the Basic Latin letters (`A`–`Z`, codes 65–90, map to
`a`–`z`, codes 97–122); all other code units are left unchanged. -/
def jsToLowerCode (n : Nat) : Nat :=
  if 65 ≤ n ∧ n ≤ 90 then n + 32 else n

/-- Split a code-unit list at win32 separators. The result always has at
least one (possibly empty) chunk, like `String.prototype.split`. -/
def splitSegsWin : List Nat → List (List Nat)
  | [] => [[]]
  | c :: cs =>
    match splitSegsWin cs with
    | [] => [[]]
    | s :: rest => if isSepCode c then [] :: s :: rest else (c :: s) :: rest

/-- The non-empty path segments of a code-unit list. -/
def segsOf (p : List Nat) : List (List Nat) :=
  (splitSegsWin p).filter (fun s => !s.isEmpty)

/-- Does the path start with a separator (root-relative absolute path)? -/
def isAbsWin (p : List Nat) : Bool :=
  match p with
  | [] => false
  | c :: _ => isSepCode c

/-- Normalization of a segment list: `.` (code 46) segments are dropped,
`..` segments pop the previously accepted segment (and are dropped at the
root, as in Node's resolution of absolute paths). -/
def normSegs (acc : List (List Nat)) : List (List Nat) → List (List Nat)
  | [] => acc.reverse
  | s :: rest =>
    if s = [46] then normSegs acc rest
    else if s = [46, 46] then normSegs acc.tail rest
    else normSegs (s :: acc) rest

/-- Model of `path.win32.resolve` restricted to drive-less paths: an
absolute path is normalized on its own, a relative one is appended to the
current working directory `cwd` (given as resolved segments) first. -/
def resolveWin (cwd : List (List Nat)) (p : List Nat) : List (List Nat) :=
  normSegs [] ((if isAbsWin p then [] else cwd) ++ segsOf p)

/-- Lower-case image of a segment — `path.win32.relative` compares the two
resolved paths after `toLowerCase`. -/
def lowerSeg (s : List Nat) : List Nat :=
  s.map jsToLowerCode

/-- Segment-level core of `path.win32.relative`: strip the longest common
prefix (compared case-insensitively), then one `..` (codes `[46, 46]`) per
remaining `from`-segment followed by the remaining `to`-segments. The
result is `[]` exactly when the resolved paths coincide. -/
def relSegs : List (List Nat) → List (List Nat) → List (List Nat)
  | [], [] => []
  | [], t :: ts => t :: ts
  | _ :: fs, [] => [46, 46] :: fs.map (fun _ => [46, 46])
  | f :: fs, t :: ts =>
    if lowerSeg f = lowerSeg t then relSegs fs ts
    else ((f :: fs).map (fun _ => [46, 46])) ++ t :: ts

/-- Join segments with the backslash separator (code 92). -/
def joinSep : List (List Nat) → List Nat
  | [] => []
  | [s] => s
  | s :: rest => s ++ 92 :: joinSep rest

/-- Model of `path.win32.relative(fromP, toP)` (drive-less), as a
code-unit list. -/
def win32RelativeCodes (cwd : List (List Nat)) (fromP toP : List Nat) :
    List Nat :=
  joinSep (relSegs (resolveWin cwd fromP) (resolveWin cwd toP))

/-- The source's path-equality test `path.relative(a, b) === ''`
(line 95), under the win32 model. -/
def win32PathEqual (cwd : List (List Nat)) (a b : String) : Bool :=
  win32RelativeCodes cwd (codes a) (codes b) == []

/-- `/` normalized to `\` — two raw paths "differ only in slash
direction" iff their images under (a map of) this function agree. -/
def sepNormCode (n : Nat) : Nat :=
  if n = 47 then 92 else n

/-- Canonical image of a code unit under both separator normalization and
case folding: two raw paths "differ only in letter case and/or slash
direction" iff their images under (a map of) this function agree. -/
def caseSepCanonCode (n : Nat) : Nat :=
  jsToLowerCode (sepNormCode n)

/-! ## The Orchestrator -/

/-- Modelled from the spec: the report-processor collaborator
(`src/module/ISonarQubeReportProcessor.ts`, not part of the provided
sources) — one synchronous operation producing the ordered collection of
findings for a report path, which may throw on a malformed report. -/
structure ISonarQubeReportProcessor where
  FetchCommentsFromReport : String → Except String (List Message)

/-- Modelled from the spec: the PR comment-service collaborator
(`src/module/IPrcaService.ts`, not part of the provided sources) — three
asynchronous operations, each modelled by the outcome its promise settles
with in the run under consideration. -/
structure IPrcaService where
  getModifiedFilesInPr : Except String (List String)
  deleteCodeAnalysisComments : Except String Unit
  createCodeAnalysisThreads : List Message → Except String Unit

/-- State of a constructed `PrcaOrchestrator` (lines 17–38): the two
collaborators and the private `_messageLimit` field (initialized to 100 at
line 22, possibly overwritten by the constructor). The logger is a
write-only diagnostic sink and is not modelled. -/
structure PrcaOrchestrator where
  sqReportProcessor : ISonarQubeReportProcessor
  PrcaService : IPrcaService
  _messageLimit : JSNumber

/-- The `messageLimit` getter (lines 47–49). -/
def PrcaOrchestrator.messageLimit (o : PrcaOrchestrator) : JSNumber :=
  o._messageLimit

/-- Embedding of the constructor (lines 24–38). `none` models passing
`null`/`undefined` for a collaborator, and an absent/`null`/`undefined`
`messageLimit`; a thrown `ReferenceError(name)` is modelled as
`Except.error name`. Note the guard on `messageLimit` is only the loose
`!= null && != undefined` check of line 35, which every number — including
`NaN` and `Infinity` — passes. -/
def PrcaOrchestrator.construct (sqReportProcessor : Option ISonarQubeReportProcessor)
    (prcaService : Option IPrcaService) (messageLimit : Option JSNumber) :
    Except String PrcaOrchestrator :=
  match sqReportProcessor with
  | none => .error "sqReportProcessor"
  | some rp =>
    match prcaService with
    | none => .error "PrcaService"
    | some svc =>
      .ok { sqReportProcessor := rp
            PrcaService := svc
            _messageLimit :=
              match messageLimit with
              | none => .finite 100
              | some v => v }

/-- One collaborator invocation, for the call trace of a run.
`createThreads` records the messages passed to
`createCodeAnalysisThreads`. -/
inductive CallEvent where
  | fetchReport
  | getModifiedFiles
  | deleteComments
  | createThreads (msgs : List Message)
deriving DecidableEq

/-- How a call of `postSonarQubeIssuesToPullRequest` ends: a synchronous
exception escaping the call itself, a rejection of the returned promise,
or fulfilment of the returned promise. -/
inductive RunResult where
  | syncThrow (msg : String)
  | rejected (msg : String)
  | resolved
deriving DecidableEq

/-- Embedding of `postSonarQubeIssuesToPullRequest` (lines 57–80):
the outcome of the call together with the ordered trace of collaborator
invocations. `none` models a `null`/`undefined` report path. The guard of
lines 59–61 throws synchronously (the function is not `async`, so the
`throw` escapes the call rather than rejecting the returned promise);
`FetchCommentsFromReport` is likewise invoked before the promise chain
starts, so its exceptions are synchronous too. The chain then runs
`getModifiedFilesInPr`, the pure `filterMessages`, then
`deleteCodeAnalysisComments`, then `createCodeAnalysisThreads`; a
rejection anywhere skips the remaining `.then` steps and rejects the
returned promise with the same error. `pathEq` is the host path-equality
used by `filterMessages`. -/
def PrcaOrchestrator.postSonarQubeIssuesToPullRequest (o : PrcaOrchestrator)
    (pathEq : String → String → Bool) (sqReportPath : Option String) :
    RunResult × List CallEvent :=
  match sqReportPath with
  | none =>
    (.syncThrow "Make sure a SonarQube enabled build task ran before this step.", [])
  | some reportPath =>
    match o.sqReportProcessor.FetchCommentsFromReport reportPath with
    | .error e => (.syncThrow e, [.fetchReport])
    | .ok allMessages =>
      match o.PrcaService.getModifiedFilesInPr with
      | .error e => (.rejected e, [.fetchReport, .getModifiedFiles])
      | .ok filesChanged =>
        let messagesToPost := filterMessages pathEq filesChanged allMessages o._messageLimit
        match o.PrcaService.deleteCodeAnalysisComments with
        | .error e =>
          (.rejected e, [.fetchReport, .getModifiedFiles, .deleteComments])
        | .ok _ =>
          match o.PrcaService.createCodeAnalysisThreads messagesToPost with
          | .error e =>
            (.rejected e,
             [.fetchReport, .getModifiedFiles, .deleteComments,
              .createThreads messagesToPost])
          | .ok _ =>
            (.resolved,
             [.fetchReport, .getModifiedFiles, .deleteComments,
              .createThreads messagesToPost])

/-! ## Heap-level model of `filterMessages`

For the frame property (which lists `filterMessages` mutates) the pure
embedding above is too coarse: JS arrays are heap references, and
`Array.prototype.sort` sorts its receiver in place. The model below makes
every allocation and in-place write explicit. The stores hold the message
arrays and string arrays of the heap; an array value is its index. -/

/-- The heap fragment `filterMessages` can reach: the `Message[]` arrays
and the `string[]` arrays. -/
structure JsArrayStore where
  msgArrays : List (List Message)
  strArrays : List (List String)

/-- Heap-level embedding of `filterMessages` (lines 85–113).
`filesChangedRef` and `allMessagesRef` are the references held by the two
parameters. Following the source: `result` first aliases `allMessages`
(line 87); `result.filter` (line 90) reads the receiver and allocates a
fresh array, rebinding `result`; `result.sort` (line 104) sorts the array
`result` refers to in place (a write to that same cell); `result.slice`
(line 110) reads the receiver and allocates a fresh array. Returns the
final store and the reference `result` holds at `return result`. -/
def filterMessagesHeap (pathEq : String → String → Bool)
    (s : JsArrayStore) (filesChangedRef allMessagesRef : Nat)
    (messageLimit : JSNumber) : JsArrayStore × Nat :=
  let resultRef0 := allMessagesRef
  let filesChanged := s.strArrays.getD filesChangedRef []
  let filtered :=
    (s.msgArrays.getD resultRef0 []).filter (isRelevantMessage pathEq filesChanged)
  let s1 : JsArrayStore := { s with msgArrays := s.msgArrays ++ [filtered] }
  let resultRef1 := s.msgArrays.length
  let s2 : JsArrayStore :=
    { s1 with
      msgArrays :=
        s1.msgArrays.set resultRef1 (jsSortMessages (s1.msgArrays.getD resultRef1 [])) }
  let sortedArr := s2.msgArrays.getD resultRef1 []
  let s3 : JsArrayStore :=
    { s2 with
      msgArrays := s2.msgArrays ++ [sortedArr.take (jsSliceEnd sortedArr.length messageLimit)] }
  let resultRef2 := s2.msgArrays.length
  (s3, resultRef2)

/-! ## Concrete values for the closed instances below -/

/-- A concrete message on `a.ts`. -/
def msgA : Message :=
  { file := "a.ts", priority := 2, content := "m1" }

/-- A concrete message on `b.ts` with a higher priority. -/
def msgB : Message :=
  { file := "b.ts", priority := 5, content := "m2" }

/-- A concrete message on a file outside the changed set. -/
def msgD : Message :=
  { file := "d.ts", priority := 9, content := "m3" }

/-- A concrete report processor producing two findings. -/
def stubProcessor : ISonarQubeReportProcessor :=
  { FetchCommentsFromReport := fun _ => .ok [msgA, msgB] }

/-- A concrete PR comment service whose three operations all succeed. -/
def stubService : IPrcaService :=
  { getModifiedFilesInPr := .ok ["a.ts", "b.ts"]
    deleteCodeAnalysisComments := .ok ()
    createCodeAnalysisThreads := fun _ => .ok () }

/-- A concrete PR comment service whose delete call fails. -/
def failingDeleteService : IPrcaService :=
  { stubService with deleteCodeAnalysisComments := .error "delete failed" }

/-- A concrete orchestrator wired to the failing-delete service. -/
def failingDeleteOrchestrator : PrcaOrchestrator :=
  { sqReportProcessor := stubProcessor
    PrcaService := failingDeleteService
    _messageLimit := .finite 100 }

/-- Plain string equality, a concrete stand-in for the host path-equality
predicate in closed instances. -/
def stringEqPathEq (a b : String) : Bool :=
  a == b

/-! ## Order-theoretic facts about the sort order -/

instance : IsTotal Message MessageLE :=
  ⟨by
    intro a b
    simp only [MessageLE, Message.le, Message.compare, decide_eq_true_eq]
    omega⟩

instance : IsTrans Message MessageLE :=
  ⟨by
    intro a b c
    simp only [MessageLE, Message.le, Message.compare, decide_eq_true_eq]
    omega⟩

/-! ## Claims about the orchestration control flow -/

/-- C5: calling `postSonarQubeIssuesToPullRequest` with a `null` or
`undefined` report path fails with the invalid-input error, whose message
instructs that a prerequisite SonarQube build step must run, and the call
trace is empty: neither the report processor nor any PR-comment-service
operation was invoked. -/
theorem postIssues_nullReportPath_failsFast (o : PrcaOrchestrator)
    (pathEq : String → String → Bool) :
    o.postSonarQubeIssuesToPullRequest pathEq none =
      (.syncThrow "Make sure a SonarQube enabled build task ran before this step.", []) :=
  rfl

/-- C10: on a `null`/`undefined` report path the invalid-input failure is
a synchronous exception escaping the call itself — the outcome is
`syncThrow`, never a rejected promise, so a caller that only attaches a
rejection handler to the returned promise does not observe it. -/
theorem postIssues_nullReportPath_syncThrow (o : PrcaOrchestrator)
    (pathEq : String → String → Bool) :
    (o.postSonarQubeIssuesToPullRequest pathEq none).1 =
      RunResult.syncThrow "Make sure a SonarQube enabled build task ran before this step." ∧
    ∀ e, (o.postSonarQubeIssuesToPullRequest pathEq none).1 ≠ RunResult.rejected e := by
  refine ⟨rfl, fun e h => ?_⟩
  simp only [PrcaOrchestrator.postSonarQubeIssuesToPullRequest] at h
  exact absurd h (by simp)

/-- C8: construction fails immediately with a `ReferenceError` naming the
missing collaborator when the report processor or the PR comment service
is `null`/`undefined` (the processor is checked first), and succeeds
whenever both are present. -/
theorem construct_checks_collaborators :
    (∀ svc ml, PrcaOrchestrator.construct none svc ml = .error "sqReportProcessor") ∧
    (∀ rp ml, PrcaOrchestrator.construct (some rp) none ml = .error "PrcaService") ∧
    (∀ rp svc ml, ∃ o, PrcaOrchestrator.construct (some rp) (some svc) ml = .ok o) :=
  ⟨fun _ _ => rfl, fun _ _ => rfl, fun _ _ _ => ⟨_, rfl⟩⟩

/-- C7, counterexample: the claim says a non-finite `messageLimit`
argument (e.g. `NaN`) leaves the default of 100 in place; but the
constructor only performs the loose `!= null` check, so constructing with
`NaN` stores `NaN` as the orchestrator's message limit, not 100. -/
theorem construct_nan_messageLimit_kept :
    (PrcaOrchestrator.construct (some stubProcessor) (some stubService)
        (some JSNumber.nan)).map PrcaOrchestrator.messageLimit =
      .ok JSNumber.nan ∧
    JSNumber.nan ≠ JSNumber.finite 100 :=
  ⟨rfl, by decide⟩

/-- C7, amended: if the `messageLimit` argument is absent
(`null`/`undefined`), the constructed orchestrator's `messageLimit` is the
default 100; otherwise it is exactly the given value — including `NaN`
and `Infinity`, which the loose `!= null` check does not filter out. The
limit is fixed at construction (the embedding is immutable; the class has
no setter). -/
theorem construct_messageLimit_value (rp : ISonarQubeReportProcessor)
    (svc : IPrcaService) :
    (PrcaOrchestrator.construct (some rp) (some svc) none).map
        PrcaOrchestrator.messageLimit = .ok (JSNumber.finite 100) ∧
    ∀ v, (PrcaOrchestrator.construct (some rp) (some svc) (some v)).map
        PrcaOrchestrator.messageLimit = .ok v :=
  ⟨rfl, fun _ => rfl⟩

/-- C4: in every run in which `deleteCodeAnalysisComments` fails (its
promise rejects with `e`), `createCodeAnalysisThreads` is never invoked,
and whenever the run did reach the delete call, the returned promise
rejects with that same failure. -/
theorem deleteFailure_blocks_createThreads (o : PrcaOrchestrator)
    (pathEq : String → String → Bool) (sqReportPath : Option String)
    (e : String) (hdel : o.PrcaService.deleteCodeAnalysisComments = .error e) :
    (∀ msgs, CallEvent.createThreads msgs ∉
        (o.postSonarQubeIssuesToPullRequest pathEq sqReportPath).2) ∧
    (CallEvent.deleteComments ∈
        (o.postSonarQubeIssuesToPullRequest pathEq sqReportPath).2 →
      (o.postSonarQubeIssuesToPullRequest pathEq sqReportPath).1 = .rejected e) := by
  cases sqReportPath with
  | none => simp [PrcaOrchestrator.postSonarQubeIssuesToPullRequest]
  | some reportPath =>
    simp only [PrcaOrchestrator.postSonarQubeIssuesToPullRequest]
    cases hfetch : o.sqReportProcessor.FetchCommentsFromReport reportPath with
    | error e' => simp [hfetch]
    | ok allMessages =>
      cases hmod : o.PrcaService.getModifiedFilesInPr with
      | error e' => simp [hfetch, hmod]
      | ok filesChanged => simp [hfetch, hmod, hdel]

/-- Closed instance of `deleteFailure_blocks_createThreads`: with a
concrete orchestrator whose delete call fails, the trace never contains a
create-threads call and the run rejects with the delete failure. -/
theorem deleteFailure_blocks_createThreads_instance :
    CallEvent.createThreads [] ∉
      (failingDeleteOrchestrator.postSonarQubeIssuesToPullRequest
        stringEqPathEq (some "report.xml")).2 ∧
    (failingDeleteOrchestrator.postSonarQubeIssuesToPullRequest
        stringEqPathEq (some "report.xml")).1 = .rejected "delete failed" :=
  ⟨(deleteFailure_blocks_createThreads failingDeleteOrchestrator
      stringEqPathEq (some "report.xml") "delete failed" rfl).1 [],
   (deleteFailure_blocks_createThreads failingDeleteOrchestrator
      stringEqPathEq (some "report.xml") "delete failed" rfl).2 (by decide)⟩

/-! ## Claims about the selection policy `filterMessages` -/

/-- For a non-negative finite message limit `n`, the `slice(0, n)` stage
of `filterMessages` is plain `take n`. -/
theorem filterMessages_finite_eq_take (pathEq : String → String → Bool)
    (filesChanged : List String) (allMessages : List Message) (n : Nat) :
    filterMessages pathEq filesChanged allMessages (.finite n) =
      (jsSortMessages (allMessages.filter (isRelevantMessage pathEq filesChanged))).take n := by
  simp only [filterMessages, jsSliceEnd]
  rw [if_neg (by omega), ← List.take_take, List.take_length]
  simp

/-- C1: `filterMessages` keeps only messages whose file is path-equal
(under the host predicate `pathEq`) to some changed file, and every
message of the input satisfying that relevance test appears in the
output, unless the number of relevant messages exceeds the cap `n`. -/
theorem filterMessages_sound_complete (pathEq : String → String → Bool)
    (filesChanged : List String) (allMessages : List Message) (n : Nat) :
    (∀ m ∈ filterMessages pathEq filesChanged allMessages (.finite n),
        isRelevantMessage pathEq filesChanged m = true) ∧
    (∀ m ∈ allMessages, isRelevantMessage pathEq filesChanged m = true →
        m ∈ filterMessages pathEq filesChanged allMessages (.finite n) ∨
          n < (allMessages.filter (isRelevantMessage pathEq filesChanged)).length) := by
  rw [filterMessages_finite_eq_take]
  constructor
  · intro m hm
    have h1 : m ∈ jsSortMessages (allMessages.filter (isRelevantMessage pathEq filesChanged)) :=
      List.mem_of_mem_take hm
    have h2 : m ∈ allMessages.filter (isRelevantMessage pathEq filesChanged) := by
      simpa [jsSortMessages, List.mem_insertionSort] using h1
    exact (List.mem_filter.mp h2).2
  · intro m hm hrel
    by_cases hlen : (allMessages.filter (isRelevantMessage pathEq filesChanged)).length ≤ n
    · left
      have hmem : m ∈ allMessages.filter (isRelevantMessage pathEq filesChanged) :=
        List.mem_filter.mpr ⟨hm, hrel⟩
      rw [List.take_of_length_le (by simpa [jsSortMessages] using hlen)]
      simpa [jsSortMessages, List.mem_insertionSort] using hmem
    · right
      omega

/-- Closed instance of `filterMessages_sound_complete` at a concrete
input: the message on changed file `b.ts` is relevant, and the message on
changed file `a.ts` is in the output of the filter (or the cap of 10 was
exceeded). -/
theorem filterMessages_sound_complete_instance :
    isRelevantMessage stringEqPathEq ["a.ts", "b.ts"] msgB = true ∧
    (msgA ∈ filterMessages stringEqPathEq ["a.ts", "b.ts"] [msgA, msgD, msgB] (.finite 10) ∨
      10 < ([msgA, msgD, msgB].filter (isRelevantMessage stringEqPathEq ["a.ts", "b.ts"])).length) :=
  ⟨(filterMessages_sound_complete stringEqPathEq ["a.ts", "b.ts"] [msgA, msgD, msgB] 10).1
      msgB (by decide),
   (filterMessages_sound_complete stringEqPathEq ["a.ts", "b.ts"] [msgA, msgD, msgB] 10).2
      msgA (by decide) (by decide)⟩

/-- C3: the output of `filterMessages` never exceeds the cap `n`, and if
the number of relevant messages is at most `n`, no truncation occurs: the
output is exactly the relevant messages (as a permutation — reordered by
the priority sort). -/
theorem filterMessages_respects_cap (pathEq : String → String → Bool)
    (filesChanged : List String) (allMessages : List Message) (n : Nat) :
    (filterMessages pathEq filesChanged allMessages (.finite n)).length ≤ n ∧
    ((allMessages.filter (isRelevantMessage pathEq filesChanged)).length ≤ n →
      (filterMessages pathEq filesChanged allMessages (.finite n)).Perm
        (allMessages.filter (isRelevantMessage pathEq filesChanged))) := by
  rw [filterMessages_finite_eq_take]
  constructor
  · simp
  · intro h
    rw [List.take_of_length_le (by simpa [jsSortMessages] using h)]
    exact List.perm_insertionSort _ _

/-- Closed instance of `filterMessages_respects_cap` at a concrete input
with cap 1: the output has at most one message, and with cap 10 (not
exceeded by the two relevant messages) the output is a permutation of the
relevant messages. -/
theorem filterMessages_respects_cap_instance :
    (filterMessages stringEqPathEq ["a.ts", "b.ts"] [msgA, msgD, msgB] (.finite 1)).length ≤ 1 ∧
    (filterMessages stringEqPathEq ["a.ts", "b.ts"] [msgA, msgD, msgB] (.finite 10)).Perm
      ([msgA, msgD, msgB].filter (isRelevantMessage stringEqPathEq ["a.ts", "b.ts"])) :=
  ⟨(filterMessages_respects_cap stringEqPathEq ["a.ts", "b.ts"] [msgA, msgD, msgB] 1).1,
   (filterMessages_respects_cap stringEqPathEq ["a.ts", "b.ts"] [msgA, msgD, msgB] 10).2
      (by decide)⟩

/-- Stability of the sort model: the messages of any single fixed
priority `q` appear in `jsSortMessages l` exactly as they appear in `l`
(same messages, same order). -/
theorem filter_priority_jsSortMessages (l : List Message) (q : Int) :
    (jsSortMessages l).filter (fun m => m.priority == q) =
      l.filter (fun m => m.priority == q) := by
  have hsub : List.Sublist (l.filter (fun m => m.priority == q)) l :=
    List.filter_sublist l
  have hpw : (l.filter (fun m => m.priority == q)).Pairwise MessageLE := by
    refine List.pairwise_of_forall_mem_list ?_
    intro a ha b hb
    have ha' := (List.mem_filter.mp ha).2
    have hb' := (List.mem_filter.mp hb).2
    simp only [beq_iff_eq] at ha' hb'
    simp only [MessageLE, Message.le, Message.compare, decide_eq_true_eq]
    omega
  have h1 : List.Sublist (l.filter (fun m => m.priority == q)) (jsSortMessages l) :=
    List.sublist_insertionSort hpw hsub
  have h2 : (l.filter (fun m => m.priority == q)).filter (fun m => m.priority == q) =
      l.filter (fun m => m.priority == q) :=
    List.filter_eq_self.mpr fun m hm => (List.mem_filter.mp hm).2
  have h3 : List.Sublist (l.filter (fun m => m.priority == q))
      ((jsSortMessages l).filter (fun m => m.priority == q)) := by
    have := h1.filter (fun m => m.priority == q)
    rwa [h2] at this
  have h4 : ((jsSortMessages l).filter (fun m => m.priority == q)).length =
      (l.filter (fun m => m.priority == q)).length :=
    ((List.perm_insertionSort MessageLE l).filter _).length_eq
  exact (h3.eq_of_length h4.symm).symm

/-- C2: the output of `filterMessages` is sorted by non-increasing
priority, and it is stable: for every priority `q`, the priority-`q`
messages of the output form a sublist of the priority-`q` messages of the
input `allMessages` — equal-priority messages keep the relative order
they had in the input. -/
theorem filterMessages_sorted_stable (pathEq : String → String → Bool)
    (filesChanged : List String) (allMessages : List Message)
    (messageLimit : JSNumber) :
    List.Pairwise (fun a b : Message => b.priority ≤ a.priority)
      (filterMessages pathEq filesChanged allMessages messageLimit) ∧
    ∀ q : Int,
      List.Sublist
        ((filterMessages pathEq filesChanged allMessages messageLimit).filter
          (fun m => m.priority == q))
        (allMessages.filter (fun m => m.priority == q)) := by
  have htake : List.Sublist (filterMessages pathEq filesChanged allMessages messageLimit)
      (jsSortMessages (allMessages.filter (isRelevantMessage pathEq filesChanged))) := by
    simp only [filterMessages]
    exact List.take_sublist _ _
  constructor
  · have hs : (jsSortMessages
        (allMessages.filter (isRelevantMessage pathEq filesChanged))).Pairwise MessageLE :=
      List.sorted_insertionSort MessageLE _
    refine (hs.sublist htake).imp ?_
    intro a b hab
    simp only [MessageLE, Message.le, Message.compare, decide_eq_true_eq] at hab
    omega
  · intro q
    have h1 := htake.filter (fun m => m.priority == q)
    rw [filter_priority_jsSortMessages] at h1
    exact h1.trans ((List.filter_sublist allMessages).filter _)

/-- Reading below the old length after appending one array reads the old
store. -/
theorem getD_append_lt {α : Type} (l l' : List α) (i : Nat) (d : α)
    (h : i < l.length) : (l ++ l').getD i d = l.getD i d := by
  simp [List.getD_eq_getElem?_getD, List.getElem?_append_left h]

/-- Reading the freshly appended cell yields the appended array. -/
theorem getD_concat_length {α : Type} (l : List α) (a : α) (d : α) :
    (l ++ [a]).getD l.length d = a := by
  simp [List.getD_eq_getElem?_getD]

/-- Writing the freshly appended cell replaces only that cell. -/
theorem set_concat_length {α : Type} (l : List α) (a b : α) :
    (l ++ [a]).set l.length b = l ++ [b] := by
  rw [List.set_append_right _ _ (Nat.le_refl _)]
  simp

/-- C9: the heap-level `filterMessagesHeap` is frame-safe. Under a valid
`allMessages` reference: the array `allMessages` refers to is unchanged;
no string array (in particular `filesChanged`) is touched; the returned
reference is fresh (past every pre-existing message array, hence distinct
from `allMessagesRef`); its content is exactly the pure `filterMessages`
of the argument arrays; and every message in the result is one of the
original `allMessages` objects — no `Message` is mutated or rebuilt. -/
theorem filterMessagesHeap_frame (pathEq : String → String → Bool)
    (s : JsArrayStore) (filesChangedRef allMessagesRef : Nat)
    (messageLimit : JSNumber)
    (h : allMessagesRef < s.msgArrays.length) :
    (filterMessagesHeap pathEq s filesChangedRef allMessagesRef messageLimit).1.msgArrays.getD
        allMessagesRef [] = s.msgArrays.getD allMessagesRef [] ∧
    (filterMessagesHeap pathEq s filesChangedRef allMessagesRef messageLimit).1.strArrays =
      s.strArrays ∧
    s.msgArrays.length ≤
      (filterMessagesHeap pathEq s filesChangedRef allMessagesRef messageLimit).2 ∧
    (filterMessagesHeap pathEq s filesChangedRef allMessagesRef messageLimit).1.msgArrays.getD
        (filterMessagesHeap pathEq s filesChangedRef allMessagesRef messageLimit).2 [] =
      filterMessages pathEq (s.strArrays.getD filesChangedRef [])
        (s.msgArrays.getD allMessagesRef []) messageLimit ∧
    ∀ m ∈ (filterMessagesHeap pathEq s filesChangedRef allMessagesRef messageLimit).1.msgArrays.getD
        (filterMessagesHeap pathEq s filesChangedRef allMessagesRef messageLimit).2 [],
      m ∈ s.msgArrays.getD allMessagesRef [] := by
  have hset := set_concat_length s.msgArrays
    ((s.msgArrays.getD allMessagesRef []).filter
      (isRelevantMessage pathEq (s.strArrays.getD filesChangedRef [])))
  simp only [filterMessagesHeap, getD_concat_length, hset]
  refine ⟨?_, trivial, ?_, ?_, ?_⟩
  · rw [getD_append_lt _ _ _ _ (by simp; omega), getD_append_lt _ _ _ _ h]
  · simp
  · simp [filterMessages]
  · intro m hm
    have h1 := List.mem_of_mem_take hm
    have h2 : m ∈ (s.msgArrays.getD allMessagesRef []).filter
        (isRelevantMessage pathEq (s.strArrays.getD filesChangedRef [])) := by
      simpa [jsSortMessages, List.mem_insertionSort] using h1
    exact (List.mem_filter.mp h2).1

/-- Closed instance of `filterMessagesHeap_frame`: on a one-array store
the source array is unchanged by the run. -/
theorem filterMessagesHeap_frame_instance :
    (0 : Nat) < ([[msgA]] : List (List Message)).length ∧
    (filterMessagesHeap stringEqPathEq ⟨[[msgA]], [["a.ts"]]⟩ 0 0
        (.finite 100)).1.msgArrays.getD 0 [] = [msgA] :=
  ⟨by decide,
   (filterMessagesHeap_frame stringEqPathEq ⟨[[msgA]], [["a.ts"]]⟩ 0 0
      (.finite 100) (by decide)).1⟩
/-! ## Lemmas for the path-equality claim -/

/-- Separator classification is invariant under case folding and
separator normalization. -/
theorem isSepCode_caseSepCanon (n : Nat) :
    isSepCode (caseSepCanonCode n) = isSepCode n := by
  by_cases h47 : n = 47
  · subst h47; rfl
  by_cases h92 : n = 92
  · subst h92; rfl
  have hns : isSepCode n = false := by simp [isSepCode, h47, h92]
  rw [hns]
  simp only [caseSepCanonCode, sepNormCode, if_neg h47, jsToLowerCode, isSepCode]
  split_ifs with h
  · simp only [Bool.or_eq_false_iff, beq_eq_false_iff_ne]
    omega
  · simp [h47, h92]

/-- Case folding maps a code unit to 46 (`.`) only from 46 itself. -/
theorem jsToLowerCode_eq_46_iff (n : Nat) : jsToLowerCode n = 46 ↔ n = 46 := by
  simp only [jsToLowerCode]
  split_ifs <;> omega

/-- Case folding is idempotent. -/
theorem jsToLowerCode_idem (n : Nat) :
    jsToLowerCode (jsToLowerCode n) = jsToLowerCode n := by
  simp only [jsToLowerCode]
  split_ifs <;> omega

/-- On non-separator code units the canonical image case-folds to the
same value as the original. -/
theorem jsToLowerCode_caseSepCanon_of_not_sep (n : Nat) (h : isSepCode n = false) :
    jsToLowerCode (caseSepCanonCode n) = jsToLowerCode n := by
  simp only [isSepCode, Bool.or_eq_false_iff, beq_eq_false_iff_ne] at h
  simp only [caseSepCanonCode, sepNormCode, if_neg h.1]
  exact jsToLowerCode_idem n

/-- Splitting never produces the empty chunk list. -/
theorem splitSegsWin_ne_nil (l : List Nat) : splitSegsWin l ≠ [] := by
  cases l with
  | nil => simp [splitSegsWin]
  | cons c cs =>
    rw [splitSegsWin]
    rcases hr : splitSegsWin cs with _ | ⟨s, rest⟩
    · simp
    · dsimp only
      split <;> simp

/-- Chunks produced by splitting contain no separators. -/
theorem not_sep_of_mem_splitSegsWin (l : List Nat) :
    ∀ s ∈ splitSegsWin l, ∀ c ∈ s, isSepCode c = false := by
  induction l with
  | nil =>
    intro s hs c hc
    simp only [splitSegsWin, List.mem_singleton] at hs
    subst hs
    simp at hc
  | cons x xs ih =>
    intro s hs c hc
    rw [splitSegsWin] at hs
    rcases hr : splitSegsWin xs with _ | ⟨s0, rest⟩
    · exact absurd hr (splitSegsWin_ne_nil xs)
    rw [hr] at hs
    dsimp only at hs
    by_cases hx : isSepCode x
    · rw [if_pos hx] at hs
      rcases List.mem_cons.mp hs with hs | hs
      · subst hs; simp at hc
      · exact ih s (hr ▸ hs) c hc
    · rw [if_neg hx] at hs
      rcases List.mem_cons.mp hs with hs | hs
      · subst hs
        rcases List.mem_cons.mp hc with hc | hc
        · subst hc; simpa using hx
        · exact ih s0 (hr ▸ List.mem_cons_self s0 rest) c hc
      · exact ih s (hr ▸ List.mem_cons.mpr (Or.inr hs)) c hc

/-- Splitting commutes with the canonical code-unit map. -/
theorem splitSegsWin_map_canon (l : List Nat) :
    splitSegsWin (l.map caseSepCanonCode) =
      (splitSegsWin l).map (List.map caseSepCanonCode) := by
  induction l with
  | nil => rfl
  | cons c cs ih =>
    rw [List.map_cons, splitSegsWin, splitSegsWin, ih]
    rcases hr : splitSegsWin cs with _ | ⟨s, rest⟩
    · exact absurd hr (splitSegsWin_ne_nil cs)
    dsimp only [List.map_cons]
    rw [isSepCode_caseSepCanon]
    split <;> simp

/-- Taking the non-empty segments commutes with the canonical map. -/
theorem segsOf_map_canon (l : List Nat) :
    segsOf (l.map caseSepCanonCode) = (segsOf l).map (List.map caseSepCanonCode) := by
  rw [segsOf, segsOf, splitSegsWin_map_canon, List.filter_map]
  congr 1
  refine List.filter_congr ?_
  intro s _
  cases s <;> rfl

/-- Absoluteness is invariant under the canonical map. -/
theorem isAbsWin_map_canon (l : List Nat) :
    isAbsWin (l.map caseSepCanonCode) = isAbsWin l := by
  cases l with
  | nil => rfl
  | cons c cs => simp [isAbsWin, isSepCode_caseSepCanon]

/-- The case-folded segments of a path are unchanged by the canonical
map: within segments (no separators) the canonical map is case folding,
which is idempotent. -/
theorem lowerSeg_segsOf_map_canon (l : List Nat) :
    (segsOf (l.map caseSepCanonCode)).map lowerSeg = (segsOf l).map lowerSeg := by
  rw [segsOf_map_canon, List.map_map]
  refine List.map_congr_left ?_
  intro s hs
  have hmem : s ∈ splitSegsWin l := List.mem_of_mem_filter hs
  simp only [Function.comp, lowerSeg, List.map_map]
  refine List.map_congr_left ?_
  intro c hc
  exact jsToLowerCode_caseSepCanon_of_not_sep c
    (not_sep_of_mem_splitSegsWin l s hmem c hc)

/-- A segment case-folds to `.` only from `.` itself. -/
theorem lowerSeg_eq_dot_iff (s : List Nat) : lowerSeg s = [46] ↔ s = [46] := by
  constructor
  · intro h
    rcases s with _ | ⟨c, s'⟩
    · simp [lowerSeg] at h
    · rcases s' with _ | ⟨d, s''⟩
      · simp only [lowerSeg, List.map_cons, List.map_nil, List.cons.injEq, and_true] at h
        rw [(jsToLowerCode_eq_46_iff c).mp h]
      · simp [lowerSeg] at h
  · intro h; subst h; rfl

/-- A segment case-folds to `..` only from `..` itself. -/
theorem lowerSeg_eq_dotdot_iff (s : List Nat) : lowerSeg s = [46, 46] ↔ s = [46, 46] := by
  constructor
  · intro h
    rcases s with _ | ⟨c, s'⟩
    · simp [lowerSeg] at h
    · rcases s' with _ | ⟨d, s''⟩
      · simp [lowerSeg] at h
      · rcases s'' with _ | ⟨e, s'''⟩
        · simp only [lowerSeg, List.map_cons, List.map_nil, List.cons.injEq, and_true] at h
          rw [(jsToLowerCode_eq_46_iff c).mp h.1, (jsToLowerCode_eq_46_iff d).mp h.2]
        · simp [lowerSeg] at h
  · intro h; subst h; rfl

/-- Normalization respects case-folded equality of the pending segments
and of the accumulator. -/
theorem normSegs_congr_lower : ∀ (xs ys acc₁ acc₂ : List (List Nat)),
    xs.map lowerSeg = ys.map lowerSeg → acc₁.map lowerSeg = acc₂.map lowerSeg →
    (normSegs acc₁ xs).map lowerSeg = (normSegs acc₂ ys).map lowerSeg
  | [], ys, acc₁, acc₂, hxy, hacc => by
    rcases ys with _ | ⟨t, ys'⟩
    · simp only [normSegs, List.map_reverse, hacc]
    · simp at hxy
  | s :: xs', ys, acc₁, acc₂, hxy, hacc => by
    rcases ys with _ | ⟨t, ys'⟩
    · simp at hxy
    simp only [List.map_cons, List.cons.injEq] at hxy
    obtain ⟨hst, hxy'⟩ := hxy
    rw [normSegs, normSegs]
    by_cases h1 : s = [46]
    · have h1' : t = [46] := by
        rw [← lowerSeg_eq_dot_iff, ← hst, h1]; rfl
      rw [if_pos h1, if_pos h1']
      exact normSegs_congr_lower xs' ys' acc₁ acc₂ hxy' hacc
    · have h1' : t ≠ [46] := fun ht => h1 (by
        rw [← lowerSeg_eq_dot_iff, hst, ht]; rfl)
      rw [if_neg h1, if_neg h1']
      by_cases h2 : s = [46, 46]
      · have h2' : t = [46, 46] := by
          rw [← lowerSeg_eq_dotdot_iff, ← hst, h2]; rfl
        rw [if_pos h2, if_pos h2']
        refine normSegs_congr_lower xs' ys' acc₁.tail acc₂.tail hxy' ?_
        rw [List.map_tail, List.map_tail, hacc]
      · have h2' : t ≠ [46, 46] := fun ht => h2 (by
          rw [← lowerSeg_eq_dotdot_iff, hst, ht]; rfl)
        rw [if_neg h2, if_neg h2']
        refine normSegs_congr_lower xs' ys' (s :: acc₁) (t :: acc₂) hxy' ?_
        simp only [List.map_cons, hst, hacc]

/-- `relSegs` returns the empty relative path on case-fold-equal
resolved segment lists. -/
theorem relSegs_eq_nil_of_lower_eq : ∀ (xs ys : List (List Nat)),
    xs.map lowerSeg = ys.map lowerSeg → relSegs xs ys = []
  | [], [], _ => rfl
  | [], _ :: _, h => by simp at h
  | _ :: _, [], h => by simp at h
  | x :: xs', y :: ys', h => by
    simp only [List.map_cons, List.cons.injEq] at h
    rw [relSegs, if_pos h.1]
    exact relSegs_eq_nil_of_lower_eq xs' ys' h.2

/-- C6: the path-equality relation of the relevance filter
(`path.relative(a, b) === ''`, win32 model) is case-insensitive and
separator-normalizing: whenever two paths agree code unit by code unit up
to ASCII letter case and slash direction, they are path-equal. -/
theorem win32PathEqual_case_sep_insensitive (cwd : List (List Nat)) (a b : String)
    (h : (codes a).map caseSepCanonCode = (codes b).map caseSepCanonCode) :
    win32PathEqual cwd a b = true := by
  have habs : isAbsWin (codes a) = isAbsWin (codes b) := by
    rw [← isAbsWin_map_canon (codes a), h, isAbsWin_map_canon]
  have hsegs : (segsOf (codes a)).map lowerSeg = (segsOf (codes b)).map lowerSeg := by
    rw [← lowerSeg_segsOf_map_canon (codes a), h, lowerSeg_segsOf_map_canon]
  have hres : (resolveWin cwd (codes a)).map lowerSeg =
      (resolveWin cwd (codes b)).map lowerSeg := by
    unfold resolveWin
    rw [habs]
    exact normSegs_congr_lower _ _ [] []
      (by rw [List.map_append, List.map_append, hsegs]) rfl
  have hrel : relSegs (resolveWin cwd (codes a)) (resolveWin cwd (codes b)) = [] :=
    relSegs_eq_nil_of_lower_eq _ _ hres
  simp [win32PathEqual, win32RelativeCodes, hrel, joinSep]

/-- Closed instance of `win32PathEqual_case_sep_insensitive`:
`"Src/A.ts"` and `"src\a.ts"` differ only in letter case and slash
direction, and the win32 path-equality treats them as equal. -/
theorem win32PathEqual_case_sep_insensitive_instance :
    (codes "Src/A.ts").map caseSepCanonCode =
      (codes "src\\a.ts").map caseSepCanonCode ∧
    win32PathEqual [] "Src/A.ts" "src\\a.ts" = true :=
  ⟨by decide, win32PathEqual_case_sep_insensitive [] "Src/A.ts" "src\\a.ts" (by decide)⟩
